import Mathlib

/-!
Verification of the procedural locomotion demo.

Shallow embedding of the two Python source files:
interactive_animation_demo.py (class InteractiveCharacter, keyboard-driven)
and standalone_animation_demo.py (class ProceduralCharacter, scripted
figure-8 path).  Machine floating point is modelled by the real numbers;
numpy and math library calls are modelled by their mathematical meaning
(np.linalg.norm, np.clip, math.atan2, math.degrees, math.radians).
-/

/-- Euclidean norm of a 2D vector, as computed by np.linalg.norm. -/
noncomputable def norm2 (v : ℝ × ℝ) : ℝ := Real.sqrt (v.1 ^ 2 + v.2 ^ 2)

/-- Clamp to an interval, as computed by np.clip when lo is at most hi. -/
noncomputable def npClip (x lo hi : ℝ) : ℝ := min (max x lo) hi

/-- Two-argument arctangent, as computed by math.atan2. -/
noncomputable def atan2 (y x : ℝ) : ℝ :=
  if 0 < x then Real.arctan (y / x)
  else if x < 0 ∧ 0 ≤ y then Real.arctan (y / x) + Real.pi
  else if x < 0 ∧ y < 0 then Real.arctan (y / x) - Real.pi
  else if x = 0 ∧ 0 < y then Real.pi / 2
  else if x = 0 ∧ y < 0 then -(Real.pi / 2)
  else 0

/-- Closed form of the first loop of standalone_animation_demo.py lines
96-97: while the angle exceeds pi, subtract 2*pi.  The number of
iterations the loop performs on input a with a > pi is the least natural
number k with a - 2*pi*k at most pi, which is the ceiling below. -/
noncomputable def wrapDown (a : ℝ) : ℝ :=
  if Real.pi < a then a - 2 * Real.pi * ((⌈(a - Real.pi) / (2 * Real.pi)⌉ : ℤ) : ℝ)
  else a

/-- Closed form of the second loop of standalone_animation_demo.py lines
98-99: while the angle is below -pi, add 2*pi. -/
noncomputable def wrapUp (a : ℝ) : ℝ :=
  if a < -Real.pi then a + 2 * Real.pi * ((⌈(-Real.pi - a) / (2 * Real.pi)⌉ : ℤ) : ℝ)
  else a

/-- Angle normalization performed by the two sequential while loops in
standalone_animation_demo.py lines 96-99. -/
noncomputable def normalizeAngle (a : ℝ) : ℝ := wrapUp (wrapDown a)

/-- Skeleton pose: the seven joint positions returned by
get_skeleton_points in both variants. -/
structure Pose where
  hip : ℝ × ℝ
  spine_top : ℝ × ℝ
  head : ℝ × ℝ
  left_foot : ℝ × ℝ
  right_foot : ℝ × ℝ
  left_hand : ℝ × ℝ
  right_hand : ℝ × ℝ

namespace Interactive

/-- Mutable state of InteractiveCharacter (attributes set in the
constructor of interactive_animation_demo.py lines 26-32). -/
structure IState where
  position : ℝ × ℝ
  velocity : ℝ × ℝ
  rotation : ℝ
  lean_angle : ℝ
  ground_speed : ℝ
  time : ℝ
  last_rotation : ℝ

def max_speed : ℝ := 3
def acceleration : ℝ := 8
def turn_speed : ℝ := 2.5
def friction : ℝ := 0.85
def max_lean_angle : ℝ := 20
def lean_interp_speed : ℝ := 6
def head_pitch_amplitude : ℝ := 10
def head_yaw_amplitude : ℝ := 10
def head_oscillation_speed : ℝ := 1.5
def body_height : ℝ := 1.8
def head_size : ℝ := 0.2
def leg_length : ℝ := 0.9

/-- State produced by the constructor: every scalar starts at zero. -/
def init : IState :=
  { position := (0, 0), velocity := (0, 0), rotation := 0, lean_angle := 0,
    ground_speed := 0, time := 0, last_rotation := 0 }

/-- Rotation update from turn input, lines 60-64 of update: returns the
new rotation together with the value last_rotation holds when the lean
computation later reads it. -/
noncomputable def rotPair (s : IState) (input_turn dt : ℝ) : ℝ × ℝ :=
  if input_turn ≠ 0 then (s.rotation + input_turn * turn_speed * dt, s.rotation)
  else (s.rotation, s.last_rotation)

/-- Target velocity from forward input, lines 66-73 of update. -/
noncomputable def target_velocity (s : IState) (input_forward input_turn dt : ℝ) : ℝ × ℝ :=
  (input_forward * Real.cos (rotPair s input_turn dt).1 * max_speed,
   input_forward * Real.sin (rotPair s input_turn dt).1 * max_speed)

/-- Difference between target velocity and current velocity, line 76 of
update. -/
noncomputable def velocity_diff (s : IState) (f t dt : ℝ) : ℝ × ℝ :=
  ((target_velocity s f t dt).1 - s.velocity.1,
   (target_velocity s f t dt).2 - s.velocity.2)

/-- Clamped acceleration magnitude, line 77 of update. -/
noncomputable def accel_magnitude (s : IState) (f t dt : ℝ) : ℝ :=
  min (acceleration * dt) (norm2 (velocity_diff s f t dt))

/-- Velocity after the bounded-acceleration step, lines 79-81 of update. -/
noncomputable def vel_after_accel (s : IState) (f t dt : ℝ) : ℝ × ℝ :=
  if 0.001 < norm2 (velocity_diff s f t dt) then
    (s.velocity.1 + (velocity_diff s f t dt).1 / norm2 (velocity_diff s f t dt)
        * accel_magnitude s f t dt,
     s.velocity.2 + (velocity_diff s f t dt).2 / norm2 (velocity_diff s f t dt)
        * accel_magnitude s f t dt)
  else s.velocity

/-- Velocity after the friction scaling, line 84 of update. -/
noncomputable def new_velocity (s : IState) (f t dt : ℝ) : ℝ × ℝ :=
  ((vel_after_accel s f t dt).1 * friction, (vel_after_accel s f t dt).2 * friction)

/-- Yaw rate, line 93 of update; the epsilon floor on dt guards the
division. -/
noncomputable def yaw_rate (s : IState) (t dt : ℝ) : ℝ :=
  ((rotPair s t dt).1 - (rotPair s t dt).2) / max dt 0.001

/-- Lean target, lines 97-98 of update; math.degrees multiplies by
180 / pi, and np.clip bounds the result. -/
noncomputable def target_lean (s : IState) (t dt : ℝ) : ℝ :=
  npClip (yaw_rate s t dt * (180 / Real.pi) * 0.5) (-max_lean_angle) max_lean_angle

/-- One call of InteractiveCharacter.update, lines 56-101. -/
noncomputable def update (s : IState) (f t dt : ℝ) : IState :=
  { position := (s.position.1 + (new_velocity s f t dt).1 * dt,
                 s.position.2 + (new_velocity s f t dt).2 * dt),
    velocity := new_velocity s f t dt,
    rotation := (rotPair s t dt).1,
    lean_angle := s.lean_angle + (target_lean s t dt - s.lean_angle) * lean_interp_speed * dt,
    ground_speed := norm2 (new_velocity s f t dt),
    time := s.time + dt,
    last_rotation := (rotPair s t dt).1 }

/-- Body-frame point transform rotate_point, lines 114-118 of
get_skeleton_points; math.radians multiplies by pi / 180. -/
noncomputable def rotate_point (s : IState) (px py : ℝ) : ℝ × ℝ :=
  (s.position.1 + px * Real.cos (s.lean_angle * (Real.pi / 180)) * Real.cos s.rotation
     - py * Real.sin s.rotation,
   s.position.2 + px * Real.cos (s.lean_angle * (Real.pi / 180)) * Real.sin s.rotation
     + py * Real.cos s.rotation)

/-- Walk-cycle phase accumulator, line 139: the speed is clamped below
by 0.5 in this variant. -/
noncomputable def stride_time (s : IState) : ℝ := s.time * max s.ground_speed 0.5 * 2.0

/-- Left-leg phase, line 142. -/
noncomputable def left_phase (s : IState) : ℝ := Real.sin (stride_time s)

/-- Right-leg phase, line 149. -/
noncomputable def right_phase (s : IState) : ℝ := Real.sin (stride_time s + Real.pi)

/-- Head position with procedural oscillation, lines 126-136. -/
noncomputable def head_point (s : IState) : ℝ × ℝ :=
  ((rotate_point s 0 (body_height * 0.6)).1
     + head_size * Real.sin (Real.cos (s.time * head_oscillation_speed)
         * (head_yaw_amplitude * (Real.pi / 180))) * Real.cos s.rotation,
   (rotate_point s 0 (body_height * 0.6)).2
     + head_size * Real.cos (Real.sin (s.time * head_oscillation_speed)
         * (head_pitch_amplitude * (Real.pi / 180))) + 0.3)

/-- One call of get_skeleton_points, lines 103-174: the method reads the
state, assigns to no attribute, and returns the seven joint positions;
the state component of the result is the state the caller retains. -/
noncomputable def get_skeleton_points (s : IState) : IState × Pose :=
  (s,
   { hip := s.position,
     spine_top := rotate_point s 0 (body_height * 0.6),
     head := head_point s,
     left_foot := rotate_point s (-0.2 + left_phase s * 0.3)
       (-leg_length + |left_phase s| * 0.2),
     right_foot := rotate_point s (0.2 + right_phase s * 0.3)
       (-leg_length + |right_phase s| * 0.2),
     left_hand := rotate_point s (-0.4 - right_phase s * 0.2)
       (body_height * 0.3 - |right_phase s| * 0.1),
     right_hand := rotate_point s (0.4 - left_phase s * 0.2)
       (body_height * 0.3 - |left_phase s| * 0.1) })

end Interactive

namespace Standalone

/-- CharacterState dataclass of standalone_animation_demo.py lines 18-27. -/
structure CharacterState where
  position : ℝ × ℝ
  velocity : ℝ × ℝ
  rotation : ℝ
  lean_angle : ℝ
  ground_speed : ℝ
  direction : ℝ
  time : ℝ

def max_lean_angle : ℝ := 20
def lean_interp_speed : ℝ := 6
def head_pitch_amplitude : ℝ := 10
def head_yaw_amplitude : ℝ := 10
def head_oscillation_speed : ℝ := 1.5
def walk_speed : ℝ := 2
def turn_rate : ℝ := 90
def body_height : ℝ := 1.8
def head_size : ℝ := 0.2
def leg_length : ℝ := 0.9
def arm_length : ℝ := 0.6

/-- State produced by the constructor: every scalar starts at zero. -/
def init : CharacterState :=
  { position := (0, 0), velocity := (0, 0), rotation := 0, lean_angle := 0,
    ground_speed := 0, direction := 0, time := 0 }

/-- Figure-8 path target, lines 67-70 of update; time has already been
advanced by dt when t is formed. -/
noncomputable def target_pos (s : CharacterState) (dt : ℝ) : ℝ × ℝ :=
  (3.0 * Real.sin ((s.time + dt) * 0.3),
   1.5 * Real.sin (2 * ((s.time + dt) * 0.3)))

/-- Offset from the position to the path target, line 74 of update. -/
noncomputable def direction_to_target (s : CharacterState) (dt : ℝ) : ℝ × ℝ :=
  ((target_pos s dt).1 - s.position.1, (target_pos s dt).2 - s.position.2)

/-- Velocity update, lines 75-81 of update: snap toward the target at
walk_speed when far from it, otherwise damp by 0.9. -/
noncomputable def new_velocity (s : CharacterState) (dt : ℝ) : ℝ × ℝ :=
  if 0.1 < norm2 (direction_to_target s dt) then
    ((direction_to_target s dt).1 / norm2 (direction_to_target s dt) * walk_speed,
     (direction_to_target s dt).2 / norm2 (direction_to_target s dt) * walk_speed)
  else (s.velocity.1 * 0.9, s.velocity.2 * 0.9)

/-- Ground speed recomputation, line 87 of update. -/
noncomputable def new_ground_speed (s : CharacterState) (dt : ℝ) : ℝ :=
  norm2 (new_velocity s dt)

/-- Normalized angle difference, lines 90-99 of update: initialized to
zero and only assigned inside the speed guard. -/
noncomputable def angle_diff (s : CharacterState) (dt : ℝ) : ℝ :=
  if 0.1 < new_ground_speed s dt then
    normalizeAngle (atan2 (new_velocity s dt).2 (new_velocity s dt).1 - s.rotation)
  else 0

/-- Smoothed rotation update, line 100 of update. -/
noncomputable def new_rotation (s : CharacterState) (dt : ℝ) : ℝ :=
  if 0.1 < new_ground_speed s dt then s.rotation + angle_diff s dt * 5.0 * dt
  else s.rotation

/-- Yaw rate, line 103 of update. -/
noncomputable def yaw_rate (s : CharacterState) (dt : ℝ) : ℝ :=
  angle_diff s dt / max dt 0.001

/-- Lean target, lines 104-105 of update: the yaw rate is multiplied by
0.3 directly, with no unit conversion, then clamped. -/
noncomputable def target_lean (s : CharacterState) (dt : ℝ) : ℝ :=
  npClip (yaw_rate s dt * 0.3) (-max_lean_angle) max_lean_angle

/-- One call of ProceduralCharacter.update, lines 63-108. -/
noncomputable def update (s : CharacterState) (dt : ℝ) : CharacterState :=
  { position := (s.position.1 + (new_velocity s dt).1 * dt,
                 s.position.2 + (new_velocity s dt).2 * dt),
    velocity := new_velocity s dt,
    rotation := new_rotation s dt,
    lean_angle := s.lean_angle + (target_lean s dt - s.lean_angle) * lean_interp_speed * dt,
    ground_speed := new_ground_speed s dt,
    direction := s.direction,
    time := s.time + dt }

/-- Body-frame point transform rotate_point, lines 123-129 of
get_skeleton_points. -/
noncomputable def rotate_point (s : CharacterState) (px py : ℝ) : ℝ × ℝ :=
  (s.position.1 + px * Real.cos (s.lean_angle * (Real.pi / 180)) * Real.cos s.rotation
     - py * Real.sin s.rotation,
   s.position.2 + px * Real.cos (s.lean_angle * (Real.pi / 180)) * Real.sin s.rotation
     + py * Real.cos s.rotation)

/-- Walk-cycle phase accumulator, line 150: no clamp on the speed in
this variant. -/
noncomputable def stride_time (s : CharacterState) : ℝ := s.time * s.ground_speed * 2.0

/-- Left-leg phase, line 153. -/
noncomputable def left_phase (s : CharacterState) : ℝ := Real.sin (stride_time s)

/-- Right-leg phase, line 160. -/
noncomputable def right_phase (s : CharacterState) : ℝ := Real.sin (stride_time s + Real.pi)

/-- Head position with procedural oscillation, lines 137-147. -/
noncomputable def head_point (s : CharacterState) : ℝ × ℝ :=
  ((rotate_point s 0 (body_height * 0.6)).1
     + head_size * Real.sin (Real.cos (s.time * head_oscillation_speed)
         * (head_yaw_amplitude * (Real.pi / 180))) * Real.cos s.rotation,
   (rotate_point s 0 (body_height * 0.6)).2
     + head_size * Real.cos (Real.sin (s.time * head_oscillation_speed)
         * (head_pitch_amplitude * (Real.pi / 180))) + 0.3)

/-- One call of get_skeleton_points, lines 110-185: the method reads the
state, assigns to no attribute, and returns the seven joint positions;
the state component of the result is the state the caller retains. -/
noncomputable def get_skeleton_points (s : CharacterState) : CharacterState × Pose :=
  (s,
   { hip := s.position,
     spine_top := rotate_point s 0 (body_height * 0.6),
     head := head_point s,
     left_foot := rotate_point s (-0.2 + left_phase s * 0.3)
       (-leg_length + |left_phase s| * 0.2),
     right_foot := rotate_point s (0.2 + right_phase s * 0.3)
       (-leg_length + |right_phase s| * 0.2),
     left_hand := rotate_point s (-0.4 - right_phase s * 0.2)
       (body_height * 0.3 - |right_phase s| * 0.1),
     right_hand := rotate_point s (0.4 - left_phase s * 0.2)
       (body_height * 0.3 - |left_phase s| * 0.1) })

end Standalone

/-- Concrete state used to probe the standalone lean computation: the
character sits five units below the path target reached at time zero. -/
def cexC2state : Standalone.CharacterState :=
  { position := (0, -5), velocity := (0, 0), rotation := 0, lean_angle := 0,
    ground_speed := 0, direction := 0, time := -1 }

/-- Concrete state used to probe the lean decay of the keyboard variant:
a nonzero lean angle and an aligned rotation pair. -/
def cexC10state : Interactive.IState :=
  { position := (0, 0), velocity := (0, 0), rotation := 0, lean_angle := 1,
    ground_speed := 0, time := 0, last_rotation := 0 }

/-- Concrete state with zero ground speed, used to exercise the stride
accumulators at rest. -/
def restIState : Interactive.IState :=
  { position := (0, 0), velocity := (0, 0), rotation := 0, lean_angle := 0,
    ground_speed := 0, time := 7, last_rotation := 0 }

/-- Concrete standalone state with zero ground speed. -/
def restSState : Standalone.CharacterState :=
  { position := (0, 0), velocity := (0, 0), rotation := 0, lean_angle := 0,
    ground_speed := 0, direction := 0, time := 7 }

/-! Basic facts about the numeric helpers. -/

lemma norm2_nonneg (v : ℝ × ℝ) : 0 ≤ norm2 v := Real.sqrt_nonneg _

lemma norm2_x0 (x : ℝ) : norm2 (x, 0) = |x| := by
  show Real.sqrt (x ^ 2 + 0 ^ 2) = |x|
  rw [show x ^ 2 + 0 ^ 2 = x ^ 2 by ring, Real.sqrt_sq_eq_abs]

lemma norm2_snd_zero (v : ℝ × ℝ) (h : v.2 = 0) : norm2 v = |v.1| := by
  rw [norm2, h, show v.1 ^ 2 + 0 ^ 2 = v.1 ^ 2 by ring, Real.sqrt_sq_eq_abs]

lemma norm2_eval (x y r : ℝ) (hr : 0 ≤ r) (h : x ^ 2 + y ^ 2 = r ^ 2) :
    norm2 (x, y) = r := by
  show Real.sqrt (x ^ 2 + y ^ 2) = r
  rw [h, Real.sqrt_sq hr]

lemma norm2_smul (c : ℝ) (v : ℝ × ℝ) : norm2 (c * v.1, c * v.2) = |c| * norm2 v := by
  show Real.sqrt ((c * v.1) ^ 2 + (c * v.2) ^ 2) = |c| * Real.sqrt (v.1 ^ 2 + v.2 ^ 2)
  rw [show (c * v.1) ^ 2 + (c * v.2) ^ 2 = c ^ 2 * (v.1 ^ 2 + v.2 ^ 2) by ring,
    Real.sqrt_mul (sq_nonneg c), Real.sqrt_sq_eq_abs]

lemma abs_fst_le_norm2 (v : ℝ × ℝ) : |v.1| ≤ norm2 v := by
  rw [norm2, ← Real.sqrt_sq_eq_abs]
  exact Real.sqrt_le_sqrt (by nlinarith [sq_nonneg v.2])

lemma abs_snd_le_norm2 (v : ℝ × ℝ) : |v.2| ≤ norm2 v := by
  rw [norm2, ← Real.sqrt_sq_eq_abs]
  exact Real.sqrt_le_sqrt (by nlinarith [sq_nonneg v.1])

lemma norm2_pos (v : ℝ × ℝ) (h : v ≠ (0, 0)) : 0 < norm2 v := by
  rw [norm2]
  apply Real.sqrt_pos.mpr
  have h1 : ¬ (v.1 = 0 ∧ v.2 = 0) := by
    intro hc
    exact h (Prod.ext hc.1 hc.2)
  rcases not_and_or.mp h1 with h2 | h2
  · have := pow_pos (abs_pos.mpr h2) 2
    rw [sq_abs] at this
    nlinarith [sq_nonneg v.2]
  · have := pow_pos (abs_pos.mpr h2) 2
    rw [sq_abs] at this
    nlinarith [sq_nonneg v.1]

lemma abs_npClip_le (x m : ℝ) (hm : 0 ≤ m) : |npClip x (-m) m| ≤ m := by
  rw [npClip, abs_le]
  exact ⟨le_min (le_max_right _ _) (by linarith), min_le_right _ _⟩

/-! Claim theorems. -/

/-- Claim C1: after every call to update, in both variants, the
ground_speed field equals the Euclidean norm of the velocity field
exactly, and the initial states satisfy the invariant as well, so it
holds in every reachable state. -/
theorem groundSpeed_eq_norm_velocity :
    (∀ (s : Interactive.IState) (f t dt : ℝ),
      (Interactive.update s f t dt).ground_speed =
        norm2 (Interactive.update s f t dt).velocity) ∧
    (∀ (s : Standalone.CharacterState) (dt : ℝ),
      (Standalone.update s dt).ground_speed = norm2 (Standalone.update s dt).velocity) ∧
    Interactive.init.ground_speed = norm2 Interactive.init.velocity ∧
    Standalone.init.ground_speed = norm2 Standalone.init.velocity := by
  refine ⟨fun s f t dt => rfl, fun s dt => rfl, ?_, ?_⟩ <;>
    simp [Interactive.init, Standalone.init, norm2, Real.sqrt_zero]

/-- Claim C4: skeleton derivation is a pure function of the state: it
returns the state unchanged, and deriving again from the returned state
yields the identical pose, in both variants. -/
theorem skeleton_pure_deterministic :
    (∀ s : Interactive.IState,
      (Interactive.get_skeleton_points s).1 = s ∧
      (Interactive.get_skeleton_points ((Interactive.get_skeleton_points s).1)).2 =
        (Interactive.get_skeleton_points s).2) ∧
    (∀ s : Standalone.CharacterState,
      (Standalone.get_skeleton_points s).1 = s ∧
      (Standalone.get_skeleton_points ((Standalone.get_skeleton_points s).1)).2 =
        (Standalone.get_skeleton_points s).2) :=
  ⟨fun _ => ⟨rfl, rfl⟩, fun _ => ⟨rfl, rfl⟩⟩

/-- Claim C8: in both variants the right-leg walk phase is the exact
negation of the left-leg phase, for every state, since
sin (x + pi) = -sin x. -/
theorem leg_phases_antiphase :
    (∀ s : Interactive.IState, Interactive.right_phase s = -Interactive.left_phase s) ∧
    (∀ s : Standalone.CharacterState, Standalone.right_phase s = -Standalone.left_phase s) := by
  constructor <;> intro s
  · rw [Interactive.right_phase, Interactive.left_phase, Real.sin_add_pi]
  · rw [Standalone.right_phase, Standalone.left_phase, Real.sin_add_pi]

/-- Claim C9: the walk-cycle phase accumulators differ between the
variants exactly as documented: the keyboard variant clamps the speed
below by 0.5 so the cycle advances with time even at rest, while the
scripted variant has no clamp and freezes at zero ground speed. -/
theorem stride_time_variants :
    (∀ s : Interactive.IState,
      Interactive.stride_time s = s.time * max s.ground_speed 0.5 * 2.0) ∧
    (∀ s : Standalone.CharacterState,
      Standalone.stride_time s = s.time * s.ground_speed * 2.0) ∧
    (∀ s : Standalone.CharacterState,
      Standalone.stride_time { s with ground_speed := 0 } = 0) ∧
    (∀ s : Interactive.IState,
      Interactive.stride_time { s with ground_speed := 0 } = s.time) := by
  refine ⟨fun s => rfl, fun s => rfl, fun s => ?_, fun s => ?_⟩
  · rw [Standalone.stride_time]
    norm_num
  · rw [Interactive.stride_time]
    norm_num
    ring

lemma wrapDown_le_pi (a : ℝ) : wrapDown a ≤ Real.pi := by
  rw [wrapDown]
  split_ifs with h
  · have hc := Int.le_ceil ((a - Real.pi) / (2 * Real.pi))
    have h2 : (0:ℝ) < 2 * Real.pi := by linarith [Real.pi_pos]
    have h3 := mul_le_mul_of_nonneg_left hc h2.le
    have hid : 2 * Real.pi * ((a - Real.pi) / (2 * Real.pi)) = a - Real.pi := by
      field_simp
    rw [hid] at h3
    linarith
  · linarith [not_lt.mp h]

lemma neg_pi_le_wrapUp (a : ℝ) : -Real.pi ≤ wrapUp a := by
  rw [wrapUp]
  split_ifs with h
  · have hc := Int.le_ceil ((-Real.pi - a) / (2 * Real.pi))
    have h2 : (0:ℝ) < 2 * Real.pi := by linarith [Real.pi_pos]
    have h3 := mul_le_mul_of_nonneg_left hc h2.le
    have hid : 2 * Real.pi * ((-Real.pi - a) / (2 * Real.pi)) = -Real.pi - a := by
      field_simp
    rw [hid] at h3
    linarith
  · linarith [not_lt.mp h]

lemma wrapUp_le_pi (a : ℝ) (ha : a ≤ Real.pi) : wrapUp a ≤ Real.pi := by
  rw [wrapUp]
  split_ifs with h
  · have hc := Int.ceil_lt_add_one ((-Real.pi - a) / (2 * Real.pi))
    have h2 : (0:ℝ) < 2 * Real.pi := by linarith [Real.pi_pos]
    have h3 := mul_lt_mul_of_pos_left hc h2
    have hid : 2 * Real.pi * ((-Real.pi - a) / (2 * Real.pi)) = -Real.pi - a := by
      field_simp
    rw [mul_add, hid, mul_one] at h3
    linarith
  · exact ha

lemma normalizeAngle_bounds (a : ℝ) :
    -Real.pi ≤ normalizeAngle a ∧ normalizeAngle a ≤ Real.pi :=
  ⟨neg_pi_le_wrapUp _, wrapUp_le_pi _ (wrapDown_le_pi a)⟩

/-- Claim C7 (amended): the angle difference between the desired heading
and the current rotation is normalized into the closed interval
[-pi, pi]; since both while loops use strict comparisons, an input of
exactly -pi is left at -pi, so the interval is closed on both ends
rather than half-open.  The normalized difference actually used by the
update also lies in the interval. -/
theorem angle_diff_in_closed_interval :
    (∀ heading rot : ℝ,
      -Real.pi ≤ normalizeAngle (heading - rot) ∧
        normalizeAngle (heading - rot) ≤ Real.pi) ∧
    (∀ (s : Standalone.CharacterState) (dt : ℝ),
      -Real.pi ≤ Standalone.angle_diff s dt ∧ Standalone.angle_diff s dt ≤ Real.pi) := by
  refine ⟨fun h r => normalizeAngle_bounds _, fun s dt => ?_⟩
  rw [Standalone.angle_diff]
  split_ifs
  · exact normalizeAngle_bounds _
  · have := Real.pi_pos
    constructor <;> linarith

/-- Claim C7 counterexample: the normalized difference is not always
strictly greater than -pi; at heading 0 and rotation pi the difference
-pi is a fixed point of both loops. -/
theorem normalizeAngle_neg_pi_not_gt :
    ¬ (∀ heading rot : ℝ, -Real.pi < normalizeAngle (heading - rot)) := by
  intro h
  have h1 := h 0 Real.pi
  have h2 : normalizeAngle (0 - Real.pi) = -Real.pi := by
    have hp := Real.pi_pos
    rw [zero_sub, normalizeAngle, wrapDown, if_neg (by linarith), wrapUp,
      if_neg (lt_irrefl _)]
  rw [h2] at h1
  exact lt_irrefl _ h1

/-- Claim C2 (amended): both variants update the lean angle by
leanAngle += (targetLean - leanAngle) * leanInterpSpeed * dt each tick,
but only the direct-input variant converts the yaw rate to degrees
before applying its gain of 0.5; the path-following variant multiplies
the yaw rate, in radians per second, by its gain of 0.3 with no unit
conversion, and then clamps. -/
theorem lean_update_formula :
    (∀ (s : Interactive.IState) (f t dt : ℝ),
      (Interactive.update s f t dt).lean_angle =
        s.lean_angle +
          (npClip (Interactive.yaw_rate s t dt * (180 / Real.pi) * 0.5)
              (-Interactive.max_lean_angle) Interactive.max_lean_angle
            - s.lean_angle) * Interactive.lean_interp_speed * dt) ∧
    (∀ (s : Standalone.CharacterState) (dt : ℝ),
      (Standalone.update s dt).lean_angle =
        s.lean_angle +
          (npClip (Standalone.yaw_rate s dt * 0.3)
              (-Standalone.max_lean_angle) Standalone.max_lean_angle
            - s.lean_angle) * Standalone.lean_interp_speed * dt) :=
  ⟨fun _ _ _ _ => rfl, fun _ _ => rfl⟩

lemma cexC2_target_pos : Standalone.target_pos cexC2state 1 = (0, 0) := by
  rw [Standalone.target_pos]
  norm_num [cexC2state]

lemma cexC2_dir : Standalone.direction_to_target cexC2state 1 = (0, 5) := by
  rw [Standalone.direction_to_target, cexC2_target_pos]
  norm_num [cexC2state]

lemma cexC2_vel : Standalone.new_velocity cexC2state 1 = (0, 2) := by
  have h5 : norm2 ((0:ℝ), (5:ℝ)) = 5 := norm2_eval 0 5 5 (by norm_num) (by norm_num)
  rw [Standalone.new_velocity, cexC2_dir, h5, if_pos (by norm_num : (0.1:ℝ) < 5)]
  norm_num [Standalone.walk_speed]

lemma cexC2_speed : Standalone.new_ground_speed cexC2state 1 = 2 := by
  rw [Standalone.new_ground_speed, cexC2_vel]
  exact norm2_eval 0 2 2 (by norm_num) (by norm_num)

lemma atan2_two_zero : atan2 2 0 = Real.pi / 2 := by
  rw [atan2]
  norm_num

lemma cexC2_angle_diff : Standalone.angle_diff cexC2state 1 = Real.pi / 2 := by
  rw [Standalone.angle_diff, cexC2_speed]
  rw [if_pos (by norm_num : (0.1:ℝ) < 2), cexC2_vel]
  have hp := Real.pi_pos
  have harg : atan2 (((0:ℝ), (2:ℝ)).2) (((0:ℝ), (2:ℝ)).1) - cexC2state.rotation =
      Real.pi / 2 := by
    show atan2 2 0 - cexC2state.rotation = Real.pi / 2
    rw [atan2_two_zero]
    norm_num [cexC2state]
  rw [harg, normalizeAngle, wrapDown, if_neg (by linarith), wrapUp, if_neg (by linarith)]

lemma cexC2_yaw_rate : Standalone.yaw_rate cexC2state 1 = Real.pi / 2 := by
  rw [Standalone.yaw_rate, cexC2_angle_diff,
    max_eq_left (by norm_num : (0.001:ℝ) ≤ 1), div_one]

/-- Claim C2 counterexample: in the path-following variant the lean
target is not the clamped degree-converted yaw rate times the gain; at
a concrete state the code produces lean 0.9 * pi while the claimed
formula produces 120. -/
theorem standalone_lean_not_degrees :
    ¬ ((Standalone.update cexC2state 1).lean_angle =
        cexC2state.lean_angle +
          (npClip (Standalone.yaw_rate cexC2state 1 * (180 / Real.pi) * 0.3)
              (-Standalone.max_lean_angle) Standalone.max_lean_angle
            - cexC2state.lean_angle) * Standalone.lean_interp_speed * 1) := by
  intro h
  have hlt := Real.pi_lt_d2
  have hgt := Real.pi_gt_three
  have hlean : (Standalone.update cexC2state 1).lean_angle =
      cexC2state.lean_angle +
        (Standalone.target_lean cexC2state 1 - cexC2state.lean_angle) *
          Standalone.lean_interp_speed * 1 := rfl
  have htl : Standalone.target_lean cexC2state 1 = Real.pi / 2 * 0.3 := by
    rw [Standalone.target_lean, cexC2_yaw_rate, npClip, Standalone.max_lean_angle]
    rw [max_eq_left (by nlinarith), min_eq_left (by nlinarith)]
  have h90 : Standalone.yaw_rate cexC2state 1 * (180 / Real.pi) * 0.3 = 27 := by
    rw [cexC2_yaw_rate]
    have hne := Real.pi_ne_zero
    field_simp
    ring
  have hclip : npClip (27:ℝ) (-Standalone.max_lean_angle) Standalone.max_lean_angle = 20 := by
    rw [npClip, Standalone.max_lean_angle]
    rw [max_eq_left (by norm_num), min_eq_right (by norm_num)]
  rw [hlean, htl, h90, hclip] at h
  rw [show cexC2state.lean_angle = 0 from rfl, Standalone.lean_interp_speed] at h
  nlinarith

lemma lean_convex (L T : ℝ) (hL : |L| ≤ 20) (hT : |T| ≤ 20) :
    |L + (T - L) * 6 * (1 / 30)| ≤ 20 := by
  rw [abs_le] at *
  constructor <;> nlinarith

lemma interactive_lean_step (s : Interactive.IState) (f t : ℝ)
    (h : |s.lean_angle| ≤ 20) :
    |(Interactive.update s f t (1/30)).lean_angle| ≤ 20 := by
  have hT : |Interactive.target_lean s t (1/30)| ≤ 20 := by
    rw [Interactive.target_lean, Interactive.max_lean_angle]
    exact abs_npClip_le _ 20 (by norm_num)
  have he : (Interactive.update s f t (1/30)).lean_angle =
      s.lean_angle + (Interactive.target_lean s t (1/30) - s.lean_angle) * 6 * (1/30) := by
    rw [show (Interactive.update s f t (1/30)).lean_angle =
        s.lean_angle + (Interactive.target_lean s t (1/30) - s.lean_angle) *
          Interactive.lean_interp_speed * (1/30) from rfl,
      Interactive.lean_interp_speed]
  rw [he]
  exact lean_convex _ _ h hT

lemma standalone_lean_step (s : Standalone.CharacterState)
    (h : |s.lean_angle| ≤ 20) :
    |(Standalone.update s (1/30)).lean_angle| ≤ 20 := by
  have hT : |Standalone.target_lean s (1/30)| ≤ 20 := by
    rw [Standalone.target_lean, Standalone.max_lean_angle]
    exact abs_npClip_le _ 20 (by norm_num)
  have he : (Standalone.update s (1/30)).lean_angle =
      s.lean_angle + (Standalone.target_lean s (1/30) - s.lean_angle) * 6 * (1/30) := by
    rw [show (Standalone.update s (1/30)).lean_angle =
        s.lean_angle + (Standalone.target_lean s (1/30) - s.lean_angle) *
          Standalone.lean_interp_speed * (1/30) from rfl,
      Standalone.lean_interp_speed]
  rw [he]
  exact lean_convex _ _ h hT

/-- Claim C3: starting from the initial state (lean angle zero) and
updating with the fixed tick 1/30, under any sequence of inputs in the
keyboard variant and any number of ticks in the scripted variant, the
lean angle stays within [-20, 20]: each step is a convex combination of
the previous value and a target clamped to that range. -/
theorem lean_angle_bounded_reachable :
    (∀ inputs : List (ℝ × ℝ),
      |(inputs.foldl (fun s p => Interactive.update s p.1 p.2 (1/30))
          Interactive.init).lean_angle| ≤ 20) ∧
    (∀ n : ℕ,
      |((fun s => Standalone.update s (1/30))^[n] Standalone.init).lean_angle| ≤ 20) := by
  constructor
  · have hgen : ∀ (inputs : List (ℝ × ℝ)) (s : Interactive.IState),
        |s.lean_angle| ≤ 20 →
        |(inputs.foldl (fun s p => Interactive.update s p.1 p.2 (1/30)) s).lean_angle| ≤ 20 := by
      intro inputs
      induction inputs with
      | nil => intro s hs; simpa using hs
      | cons p rest ih =>
        intro s hs
        rw [List.foldl_cons]
        exact ih _ (interactive_lean_step s p.1 p.2 hs)
    intro inputs
    exact hgen inputs _ (by norm_num [Interactive.init])
  · intro n
    induction n with
    | zero => norm_num [Standalone.init]
    | succ n ih =>
      rw [Function.iterate_succ_apply']
      exact standalone_lean_step _ ih

lemma rotPair_zero (s : Interactive.IState) (dt : ℝ) :
    Interactive.rotPair s 0 dt = (s.rotation, s.last_rotation) := by
  rw [Interactive.rotPair, if_neg]
  simp

lemma yaw_rate_zero (s : Interactive.IState) (dt : ℝ)
    (h : s.last_rotation = s.rotation) :
    Interactive.yaw_rate s 0 dt = 0 := by
  rw [Interactive.yaw_rate, rotPair_zero]
  simp [h]

lemma target_lean_zero (s : Interactive.IState) (dt : ℝ)
    (h : s.last_rotation = s.rotation) :
    Interactive.target_lean s 0 dt = 0 := by
  rw [Interactive.target_lean, yaw_rate_zero s dt h, npClip, Interactive.max_lean_angle]
  rw [zero_mul, zero_mul, max_eq_left (by norm_num), min_eq_left (by norm_num)]

/-- Claim C10 (amended): with zero turn input and an aligned rotation
pair, update leaves rotation unchanged, stores the same rotation back
into last_rotation, produces a zero lean target, and multiplies the
lean angle by 1 - leanInterpSpeed * dt; the magnitude of the lean angle
does not increase provided dt is at most 1/3 (for larger dt the
smoothing factor overshoots).  The remaining motion fields do not
depend on the turn-related fields last_rotation and lean_angle. -/
theorem no_turn_frame (s : Interactive.IState) (f lr la dt : ℝ)
    (h : s.last_rotation = s.rotation) (h1 : 0 < dt) (h2 : dt ≤ 1/3) :
    (Interactive.update s f 0 dt).rotation = s.rotation ∧
    (Interactive.update s f 0 dt).last_rotation = s.rotation ∧
    Interactive.target_lean s 0 dt = 0 ∧
    (Interactive.update s f 0 dt).lean_angle = s.lean_angle * (1 - 6 * dt) ∧
    |(Interactive.update s f 0 dt).lean_angle| ≤ |s.lean_angle| ∧
    (Interactive.update { s with last_rotation := lr, lean_angle := la } f 0 dt).velocity =
      (Interactive.update s f 0 dt).velocity ∧
    (Interactive.update { s with last_rotation := lr, lean_angle := la } f 0 dt).position =
      (Interactive.update s f 0 dt).position := by
  have hrot : (Interactive.update s f 0 dt).rotation = s.rotation := by
    show (Interactive.rotPair s 0 dt).1 = s.rotation
    rw [rotPair_zero]
  have hlast : (Interactive.update s f 0 dt).last_rotation = s.rotation := by
    show (Interactive.rotPair s 0 dt).1 = s.rotation
    rw [rotPair_zero]
  have htl := target_lean_zero s dt h
  have hlean : (Interactive.update s f 0 dt).lean_angle = s.lean_angle * (1 - 6 * dt) := by
    rw [show (Interactive.update s f 0 dt).lean_angle =
        s.lean_angle + (Interactive.target_lean s 0 dt - s.lean_angle) *
          Interactive.lean_interp_speed * dt from rfl,
      htl, Interactive.lean_interp_speed]
    ring
  have habs : |(Interactive.update s f 0 dt).lean_angle| ≤ |s.lean_angle| := by
    rw [hlean, abs_mul]
    have hf : |1 - 6 * dt| ≤ 1 := by
      rw [abs_le]
      constructor <;> linarith
    exact mul_le_of_le_one_right (abs_nonneg _) hf
  have hvel : (Interactive.update { s with last_rotation := lr, lean_angle := la } f 0 dt).velocity =
      (Interactive.update s f 0 dt).velocity := by
    show Interactive.new_velocity { s with last_rotation := lr, lean_angle := la } f 0 dt =
      Interactive.new_velocity s f 0 dt
    simp [Interactive.new_velocity, Interactive.vel_after_accel, Interactive.velocity_diff,
      Interactive.accel_magnitude, Interactive.target_velocity, rotPair_zero]
  have hpos : (Interactive.update { s with last_rotation := lr, lean_angle := la } f 0 dt).position =
      (Interactive.update s f 0 dt).position := by
    have hv : Interactive.new_velocity { s with last_rotation := lr, lean_angle := la } f 0 dt =
        Interactive.new_velocity s f 0 dt := by
      simp [Interactive.new_velocity, Interactive.vel_after_accel, Interactive.velocity_diff,
        Interactive.accel_magnitude, Interactive.target_velocity, rotPair_zero]
    simp only [Interactive.update]
    rw [hv]
  exact ⟨hrot, hlast, htl, hlean, habs, hvel, hpos⟩

/-- Witness for the amended claim C10 at a concrete state and tick. -/
theorem no_turn_frame_witness :
    (Interactive.update cexC10state 0 0 (1/6)).lean_angle =
      cexC10state.lean_angle * (1 - 6 * (1/6)) :=
  (no_turn_frame cexC10state 0 2 3 (1/6) rfl (by norm_num) (by norm_num)).2.2.2.1

/-- Claim C10 counterexample: the lean angle does not merely decay for
every positive dt; at dt = 1 the smoothing factor is 1 - 6 = -5 and the
magnitude grows from 1 to 5. -/
theorem no_turn_lean_growth :
    cexC10state.last_rotation = cexC10state.rotation ∧
    |cexC10state.lean_angle| < |(Interactive.update cexC10state 0 0 1).lean_angle| := by
  refine ⟨rfl, ?_⟩
  have htl := target_lean_zero cexC10state 1 rfl
  have hlean : (Interactive.update cexC10state 0 0 1).lean_angle =
      cexC10state.lean_angle + (Interactive.target_lean cexC10state 0 1 -
        cexC10state.lean_angle) * Interactive.lean_interp_speed * 1 := rfl
  rw [hlean, htl, Interactive.lean_interp_speed,
    show cexC10state.lean_angle = 1 from rfl]
  rw [show (1:ℝ) + (0 - 1) * 6 * 1 = -5 by norm_num]
  rw [abs_one, abs_neg]
  norm_num

lemma c5_step (s : Interactive.IState) (h0 : s.rotation = 0) (h2 : s.velocity.2 = 0)
    (hlo : 0 ≤ s.velocity.1) (hhi : s.velocity.1 ≤ 1.6) :
    (Interactive.update s 1 0 (1/30)).rotation = 0 ∧
    (Interactive.update s 1 0 (1/30)).velocity.2 = 0 ∧
    0 ≤ (Interactive.update s 1 0 (1/30)).velocity.1 ∧
    (Interactive.update s 1 0 (1/30)).velocity.1 ≤ 1.6 := by
  have hrot : (Interactive.update s 1 0 (1/30)).rotation = 0 := by
    show (Interactive.rotPair s 0 (1/30)).1 = 0
    rw [rotPair_zero]
    exact h0
  have htv : Interactive.target_velocity s 1 0 (1/30) = (3, 0) := by
    rw [Interactive.target_velocity, rotPair_zero]
    simp [h0, Interactive.max_speed]
  have hvd : Interactive.velocity_diff s 1 0 (1/30) = (3 - s.velocity.1, 0) := by
    rw [Interactive.velocity_diff, htv, h2]
    norm_num
  have hnd : norm2 (Interactive.velocity_diff s 1 0 (1/30)) = 3 - s.velocity.1 := by
    rw [hvd, norm2_x0, abs_of_nonneg (by linarith)]
  have hcond : (0.001:ℝ) < norm2 (Interactive.velocity_diff s 1 0 (1/30)) := by
    rw [hnd]; linarith
  have ham : Interactive.accel_magnitude s 1 0 (1/30) = 4/15 := by
    rw [Interactive.accel_magnitude, hnd, Interactive.acceleration,
      min_eq_left (by linarith : (8:ℝ) * (1/30) ≤ 3 - s.velocity.1)]
    norm_num
  have hne : (3:ℝ) - s.velocity.1 ≠ 0 := by linarith
  have hva : Interactive.vel_after_accel s 1 0 (1/30) = (s.velocity.1 + 4/15, 0) := by
    rw [Interactive.vel_after_accel, if_pos hcond, hnd, hvd, ham, h2]
    simp [div_self hne]
  have hv : Interactive.new_velocity s 1 0 (1/30) = ((s.velocity.1 + 4/15) * 0.85, 0) := by
    rw [Interactive.new_velocity, hva, Interactive.friction]
    norm_num
  refine ⟨hrot, ?_, ?_, ?_⟩
  · show (Interactive.new_velocity s 1 0 (1/30)).2 = 0
    rw [hv]
  · show 0 ≤ (Interactive.new_velocity s 1 0 (1/30)).1
    rw [hv]
    show (0:ℝ) ≤ (s.velocity.1 + 4/15) * 0.85
    nlinarith
  · show (Interactive.new_velocity s 1 0 (1/30)).1 ≤ 1.6
    rw [hv]
    show (s.velocity.1 + 4/15) * 0.85 ≤ 1.6
    nlinarith

/-- Claim C5: driving straight ahead from rest with full forward input
at the fixed tick 1/30, the speed after every tick stays strictly below
max_speed = 3: the per-tick friction scaling holds the steady state
near 1.51, far below the cap. -/
theorem forward_speed_lt_max_speed :
    ∀ n : ℕ,
      norm2 (((fun s => Interactive.update s 1 0 (1/30))^[n] Interactive.init).velocity) <
        Interactive.max_speed := by
  have hinv : ∀ n : ℕ,
      ((fun s => Interactive.update s 1 0 (1/30))^[n] Interactive.init).rotation = 0 ∧
      ((fun s => Interactive.update s 1 0 (1/30))^[n] Interactive.init).velocity.2 = 0 ∧
      0 ≤ ((fun s => Interactive.update s 1 0 (1/30))^[n] Interactive.init).velocity.1 ∧
      ((fun s => Interactive.update s 1 0 (1/30))^[n] Interactive.init).velocity.1 ≤ 1.6 := by
    intro n
    induction n with
    | zero =>
      refine ⟨rfl, rfl, ?_, ?_⟩ <;> norm_num [Interactive.init]
    | succ n ih =>
      rw [Function.iterate_succ_apply']
      exact c5_step _ ih.1 ih.2.1 ih.2.2.1 ih.2.2.2
  intro n
  obtain ⟨h0, h2, hlo, hhi⟩ := hinv n
  rw [norm2_snd_zero _ h2, abs_of_nonneg hlo, Interactive.max_speed]
  linarith

lemma zero_input_target (s : Interactive.IState) (dt : ℝ) :
    Interactive.target_velocity s 0 0 dt = (0, 0) := by
  rw [Interactive.target_velocity]
  norm_num

lemma zero_input_diff (s : Interactive.IState) (dt : ℝ) :
    Interactive.velocity_diff s 0 0 dt = (-s.velocity.1, -s.velocity.2) := by
  rw [Interactive.velocity_diff, zero_input_target]
  norm_num

lemma zero_input_nd (s : Interactive.IState) (dt : ℝ) :
    norm2 (Interactive.velocity_diff s 0 0 dt) = norm2 s.velocity := by
  rw [zero_input_diff]
  show Real.sqrt ((-s.velocity.1) ^ 2 + (-s.velocity.2) ^ 2) = norm2 s.velocity
  rw [norm2, show (-s.velocity.1) ^ 2 + (-s.velocity.2) ^ 2 =
    s.velocity.1 ^ 2 + s.velocity.2 ^ 2 by ring]

lemma zero_input_am (s : Interactive.IState) (dt : ℝ) :
    Interactive.accel_magnitude s 0 0 dt =
      min (Interactive.acceleration * dt) (norm2 s.velocity) := by
  rw [Interactive.accel_magnitude, zero_input_nd]

lemma zero_input_velocity_eq (s : Interactive.IState) (dt : ℝ) :
    Interactive.new_velocity s 0 0 dt =
      if 0.001 < norm2 s.velocity then
        (Interactive.friction * (1 - Interactive.accel_magnitude s 0 0 dt / norm2 s.velocity)
            * s.velocity.1,
         Interactive.friction * (1 - Interactive.accel_magnitude s 0 0 dt / norm2 s.velocity)
            * s.velocity.2)
      else (Interactive.friction * s.velocity.1, Interactive.friction * s.velocity.2) := by
  rw [Interactive.new_velocity, Interactive.vel_after_accel, zero_input_nd, zero_input_diff]
  split_ifs with h
  · show ((s.velocity.1 + -s.velocity.1 / norm2 s.velocity *
        Interactive.accel_magnitude s 0 0 dt) * Interactive.friction,
      (s.velocity.2 + -s.velocity.2 / norm2 s.velocity *
        Interactive.accel_magnitude s 0 0 dt) * Interactive.friction) = _
    rw [Prod.mk.injEq]
    constructor <;> ring
  · show (s.velocity.1 * Interactive.friction, s.velocity.2 * Interactive.friction) = _
    rw [Prod.mk.injEq]
    constructor <;> ring

lemma zero_input_norm (s : Interactive.IState) (dt : ℝ) :
    norm2 (Interactive.new_velocity s 0 0 dt) =
      if 0.001 < norm2 s.velocity then
        Interactive.friction *
          (norm2 s.velocity - min (Interactive.acceleration * dt) (norm2 s.velocity))
      else Interactive.friction * norm2 s.velocity := by
  rw [zero_input_velocity_eq]
  split_ifs with h
  · have hm : 0 < norm2 s.velocity := lt_trans (by norm_num) h
    have ham := zero_input_am s dt
    have hamle : Interactive.accel_magnitude s 0 0 dt ≤ norm2 s.velocity := by
      rw [ham]; exact min_le_right _ _
    have hc : 0 ≤ Interactive.friction *
        (1 - Interactive.accel_magnitude s 0 0 dt / norm2 s.velocity) := by
      have hle : Interactive.accel_magnitude s 0 0 dt / norm2 s.velocity ≤ 1 :=
        (div_le_one hm).mpr hamle
      rw [Interactive.friction]
      nlinarith
    rw [norm2_smul, abs_of_nonneg hc, ham]
    field_simp
  · rw [norm2_smul, abs_of_nonneg (by rw [Interactive.friction]; norm_num : (0:ℝ) ≤ Interactive.friction)]

lemma zero_input_decay_step (s : Interactive.IState) (dt : ℝ) (hdt : 0 < dt) :
    norm2 (Interactive.new_velocity s 0 0 dt) ≤ Interactive.friction * norm2 s.velocity := by
  rw [zero_input_norm]
  split_ifs with h
  · have ham : 0 ≤ min (Interactive.acceleration * dt) (norm2 s.velocity) :=
      le_min (by rw [Interactive.acceleration]; positivity) (norm2_nonneg _)
    apply mul_le_mul_of_nonneg_left (by linarith) (by rw [Interactive.friction]; norm_num)
  · exact le_refl _

/-- Claim C6: under sustained zero input in the direct-input variant,
for every positive dt and every starting state, the speed strictly
decreases while the velocity is nonzero, is bounded by geometric decay
with ratio equal to the friction factor, tends to zero, and the
position converges to a limit point. -/
theorem zero_input_velocity_decay (dt : ℝ) (hdt : 0 < dt) (s0 : Interactive.IState) :
    (∀ n : ℕ, ((fun s => Interactive.update s 0 0 dt)^[n] s0).velocity ≠ (0, 0) →
      norm2 (((fun s => Interactive.update s 0 0 dt)^[n+1] s0).velocity) <
        norm2 (((fun s => Interactive.update s 0 0 dt)^[n] s0).velocity)) ∧
    (∀ n : ℕ,
      norm2 (((fun s => Interactive.update s 0 0 dt)^[n+1] s0).velocity) ≤
        Interactive.friction *
          norm2 (((fun s => Interactive.update s 0 0 dt)^[n] s0).velocity)) ∧
    Filter.Tendsto
      (fun n => norm2 (((fun s => Interactive.update s 0 0 dt)^[n] s0).velocity))
      Filter.atTop (nhds 0) ∧
    ∃ p : ℝ × ℝ,
      Filter.Tendsto (fun n => ((fun s => Interactive.update s 0 0 dt)^[n] s0).position)
        Filter.atTop (nhds p) := by
  set g : Interactive.IState → Interactive.IState := fun s => Interactive.update s 0 0 dt
    with hgdef
  have hfr0 : (0:ℝ) ≤ Interactive.friction := by rw [Interactive.friction]; norm_num
  have hfr1 : Interactive.friction < 1 := by rw [Interactive.friction]; norm_num
  have hdec : ∀ n : ℕ, norm2 ((g^[n+1] s0).velocity) ≤
      Interactive.friction * norm2 ((g^[n] s0).velocity) := by
    intro n
    rw [Function.iterate_succ_apply']
    exact zero_input_decay_step (g^[n] s0) dt hdt
  have hgeom : ∀ n : ℕ, norm2 ((g^[n] s0).velocity) ≤
      Interactive.friction ^ n * norm2 s0.velocity := by
    intro n
    induction n with
    | zero => simp
    | succ n ih =>
      calc norm2 ((g^[n+1] s0).velocity) ≤
          Interactive.friction * norm2 ((g^[n] s0).velocity) := hdec n
        _ ≤ Interactive.friction * (Interactive.friction ^ n * norm2 s0.velocity) :=
            mul_le_mul_of_nonneg_left ih hfr0
        _ = Interactive.friction ^ (n+1) * norm2 s0.velocity := by ring
  have hstrict : ∀ n : ℕ, (g^[n] s0).velocity ≠ (0, 0) →
      norm2 ((g^[n+1] s0).velocity) < norm2 ((g^[n] s0).velocity) := by
    intro n hne
    have hpos : 0 < norm2 ((g^[n] s0).velocity) := norm2_pos _ hne
    calc norm2 ((g^[n+1] s0).velocity) ≤
        Interactive.friction * norm2 ((g^[n] s0).velocity) := hdec n
      _ < 1 * norm2 ((g^[n] s0).velocity) := mul_lt_mul_of_pos_right hfr1 hpos
      _ = norm2 ((g^[n] s0).velocity) := one_mul _
  have htends : Filter.Tendsto (fun n => norm2 ((g^[n] s0).velocity))
      Filter.atTop (nhds 0) := by
    have hb : Filter.Tendsto
        (fun n : ℕ => Interactive.friction ^ n * norm2 s0.velocity)
        Filter.atTop (nhds 0) := by
      have h1 := tendsto_pow_atTop_nhds_zero_of_lt_one hfr0 hfr1
      have h2 := h1.mul_const (norm2 s0.velocity)
      simpa using h2
    exact squeeze_zero (fun n => norm2_nonneg _) hgeom hb
  have hM : 0 ≤ norm2 s0.velocity := norm2_nonneg _
  have hbound : ∀ k : ℕ, norm2 ((g^[k+1] s0).velocity) ≤
      norm2 s0.velocity * Interactive.friction ^ k := by
    intro k
    have h2 := hgeom (k+1)
    have hp : (0:ℝ) ≤ Interactive.friction ^ k := pow_nonneg hfr0 k
    have h3 : Interactive.friction ^ (k+1) * norm2 s0.velocity ≤
        Interactive.friction ^ k * norm2 s0.velocity := by
      rw [pow_succ]
      nlinarith [mul_nonneg hp hM]
    calc norm2 ((g^[k+1] s0).velocity) ≤ _ := h2
      _ ≤ Interactive.friction ^ k * norm2 s0.velocity := h3
      _ = norm2 s0.velocity * Interactive.friction ^ k := by ring
  have hsummable1 : Summable (fun k : ℕ => ((g^[k+1] s0).velocity).1) := by
    apply Summable.of_norm_bounded
      (fun k : ℕ => norm2 s0.velocity * Interactive.friction ^ k)
      ((summable_geometric_of_lt_one hfr0 hfr1).mul_left (norm2 s0.velocity))
    intro k
    rw [Real.norm_eq_abs]
    exact le_trans (abs_fst_le_norm2 _) (hbound k)
  have hsummable2 : Summable (fun k : ℕ => ((g^[k+1] s0).velocity).2) := by
    apply Summable.of_norm_bounded
      (fun k : ℕ => norm2 s0.velocity * Interactive.friction ^ k)
      ((summable_geometric_of_lt_one hfr0 hfr1).mul_left (norm2 s0.velocity))
    intro k
    rw [Real.norm_eq_abs]
    exact le_trans (abs_snd_le_norm2 _) (hbound k)
  have hposrec : ∀ n : ℕ, (g^[n+1] s0).position =
      ((g^[n] s0).position.1 + ((g^[n+1] s0).velocity).1 * dt,
       (g^[n] s0).position.2 + ((g^[n+1] s0).velocity).2 * dt) := by
    intro n
    rw [Function.iterate_succ_apply']
    rfl
  have hpx : ∀ n : ℕ, (g^[n] s0).position.1 =
      s0.position.1 + dt * ∑ k ∈ Finset.range n, ((g^[k+1] s0).velocity).1 := by
    intro n
    induction n with
    | zero => simp
    | succ n ih =>
      rw [hposrec n]
      show (g^[n] s0).position.1 + ((g^[n+1] s0).velocity).1 * dt = _
      rw [Finset.sum_range_succ, ih]
      ring
  have hpy : ∀ n : ℕ, (g^[n] s0).position.2 =
      s0.position.2 + dt * ∑ k ∈ Finset.range n, ((g^[k+1] s0).velocity).2 := by
    intro n
    induction n with
    | zero => simp
    | succ n ih =>
      rw [hposrec n]
      show (g^[n] s0).position.2 + ((g^[n+1] s0).velocity).2 * dt = _
      rw [Finset.sum_range_succ, ih]
      ring
  have hx : Filter.Tendsto (fun n => (g^[n] s0).position.1) Filter.atTop
      (nhds (s0.position.1 + dt * tsum (fun k => ((g^[k+1] s0).velocity).1))) := by
    have h2 := ((hsummable1.hasSum.tendsto_sum_nat).const_mul dt).const_add s0.position.1
    exact Filter.Tendsto.congr (fun n => (hpx n).symm) h2
  have hy : Filter.Tendsto (fun n => (g^[n] s0).position.2) Filter.atTop
      (nhds (s0.position.2 + dt * tsum (fun k => ((g^[k+1] s0).velocity).2))) := by
    have h2 := ((hsummable2.hasSum.tendsto_sum_nat).const_mul dt).const_add s0.position.2
    exact Filter.Tendsto.congr (fun n => (hpy n).symm) h2
  exact ⟨hstrict, hdec, htends, ⟨_, by simpa using hx.prod_mk_nhds hy⟩⟩

/-- Witness for claim C6 at the concrete tick 1 and the initial state. -/
theorem zero_input_velocity_decay_witness :
    Filter.Tendsto
      (fun n => norm2 (((fun s => Interactive.update s 0 0 1)^[n] Interactive.init).velocity))
      Filter.atTop (nhds 0) :=
  (zero_input_velocity_decay 1 one_pos Interactive.init).2.2.1
